import Mathlib

/-!
Verification of the Toggl Track MCP server's core logic (src/server.py):
date-range resolution, the single-day widening compensation in
`get_time_entries_fixed`, duration formatting, per-date and per-project
aggregation, project-name resolution, and the current-timer flows.

Calendar dates are embedded as integer day ordinals (days since 1970-01-01)
with `daysFromCivil` / `civilFromDays` (the standard civil-calendar
conversion), `formatDate` standing for `strftime("%Y-%m-%d")` and
`parseDate` for `strptime(s, "%Y-%m-%d")` (returning `none` where Python
raises `ValueError`).  Python dicts are embedded as insertion-ordered
association lists where inserting an existing key overwrites the value in
place (`dictInsert`, `dictAdd`, `dictPush`).  The HTTP backend is a function
parameter: theorems quantify over every possible backend response.
-/

/-- Whether a year is a leap year in the Gregorian calendar. -/
def isLeap (y : Int) : Bool :=
  (y % 4 == 0 && y % 100 != 0) || y % 400 == 0

/-- Number of days in a month of a given year. -/
def daysInMonth (y m : Int) : Int :=
  if m = 2 then (if isLeap y then 29 else 28)
  else if m = 4 ∨ m = 6 ∨ m = 9 ∨ m = 11 then 30 else 31

/-- Day ordinal (days since 1970-01-01) of a civil date. -/
def daysFromCivil (y m d : Int) : Int :=
  let y2 := if m ≤ 2 then y - 1 else y
  let era := Int.fdiv y2 400
  let yoe := y2 - era * 400
  let mp := if m > 2 then m - 3 else m + 9
  let doy := Int.fdiv (153 * mp + 2) 5 + d - 1
  let doe := yoe * 365 + Int.fdiv yoe 4 - Int.fdiv yoe 100 + doy
  era * 146097 + doe - 719468

/-- Civil date (year, month, day) of a day ordinal. -/
def civilFromDays (z0 : Int) : Int × Int × Int :=
  let z := z0 + 719468
  let era := Int.fdiv z 146097
  let doe := z - era * 146097
  let yoe := Int.fdiv (doe - Int.fdiv doe 1460 + Int.fdiv doe 36524 - Int.fdiv doe 146096) 365
  let y := yoe + era * 400
  let doy := doe - (365 * yoe + Int.fdiv yoe 4 - Int.fdiv yoe 100)
  let mp := Int.fdiv (5 * doy + 2) 153
  let d := doy - Int.fdiv (153 * mp + 2) 5 + 1
  let m := if mp < 10 then mp + 3 else mp - 9
  (if m ≤ 2 then y + 1 else y, m, d)

/-- Zero-pad an integer to two digits, as `strftime` does for `%m` and `%d`. -/
def pad2 (n : Int) : String :=
  if n < 10 then "0" ++ toString n else toString n

/-- Zero-pad an integer to four digits, as `strftime` does for `%Y`. -/
def pad4 (n : Int) : String :=
  if n < 10 then "000" ++ toString n
  else if n < 100 then "00" ++ toString n
  else if n < 1000 then "0" ++ toString n
  else toString n

/-- Embedding of `strftime("%Y-%m-%d")` on a day ordinal. -/
def formatDate (z : Int) : String :=
  let c := civilFromDays z
  pad4 c.1 ++ "-" ++ pad2 c.2.1 ++ "-" ++ pad2 c.2.2

/-- Numeric value of a decimal digit character. -/
def digitVal (c : Char) : Int :=
  Int.ofNat (c.toNat - Char.toNat '0')

/-- Embedding of `datetime.strptime(s, "%Y-%m-%d")`, as the day ordinal of the
parsed date; `none` where Python raises `ValueError`. -/
def parseDate (s : String) : Option Int :=
  match s.data with
  | [y1, y2, y3, y4, h1, m1, m2, h2, d1, d2] =>
    if y1.isDigit && y2.isDigit && y3.isDigit && y4.isDigit &&
       h1 == '-' && h2 == '-' &&
       m1.isDigit && m2.isDigit && d1.isDigit && d2.isDigit then
      let y := digitVal y1 * 1000 + digitVal y2 * 100 + digitVal y3 * 10 + digitVal y4
      let m := digitVal m1 * 10 + digitVal m2
      let d := digitVal d1 * 10 + digitVal d2
      if 1 ≤ m ∧ m ≤ 12 ∧ 1 ≤ d ∧ d ≤ daysInMonth y m then
        some (daysFromCivil y m d)
      else none
    else none
  | _ => none

/-- Lexicographic comparison of character lists, as Python compares strings. -/
def chLe : List Char → List Char → Bool
  | [], _ => true
  | _ :: _, [] => false
  | a :: as, b :: bs => decide (a < b) || (a == b && chLe as bs)

/-- Embedding of Python string `<=` (lexicographic). -/
def strLe (a b : String) : Bool :=
  chLe a.data b.data

/-- Whether `n` is an initial segment of `h` (Python `s.startswith`). -/
def chPre : List Char → List Char → Bool
  | [], _ => true
  | _ :: _, [] => false
  | a :: as, b :: bs => a == b && chPre as bs

/-- Whether `n` occurs contiguously inside `h` (Python `n in h` on strings). -/
def chSub (n : List Char) : List Char → Bool
  | [] => chPre n []
  | c :: t => chPre n (c :: t) || chSub n t

/-- A time-entry payload as the server reads it: each field is `none` when the
key is absent from the backend's JSON object. -/
structure TimeEntry where
  entryId : Option Int := none
  workspace_id : Option Int := none
  project_id : Option Int := none
  description : Option String := none
  start : Option String := none
  stopTime : Option String := none
  duration : Option Int := none
deriving DecidableEq

/-- A project payload as the server reads it. -/
structure Project where
  projId : Option Int := none
  name : Option String := none
  workspace_id : Option Int := none
deriving DecidableEq

/-- A workspace payload as the server reads it. -/
structure Workspace where
  wsId : Option Int := none
  name : Option String := none
deriving DecidableEq

/-- Insertion-ordered dict assignment `m[k] = v`: overwrite in place when the
key exists, append otherwise (Python dict semantics). -/
def dictInsert {κ α : Type} [DecidableEq κ] : List (κ × α) → κ → α → List (κ × α)
  | [], k, v => [(k, v)]
  | (k0, v0) :: rest, k, v =>
    if k0 = k then (k0, v) :: rest else (k0, v0) :: dictInsert rest k v

/-- Dict lookup `m.get(k)`. -/
def dictFind {κ α : Type} [DecidableEq κ] : List (κ × α) → κ → Option α
  | [], _ => none
  | (k0, v0) :: rest, k => if k0 = k then some v0 else dictFind rest k

/-- The pattern `if k not in m: m[k] = 0` followed by `m[k] += v`. -/
def dictAdd {κ : Type} [DecidableEq κ] : List (κ × Int) → κ → Int → List (κ × Int)
  | [], k, v => [(k, v)]
  | (k0, v0) :: rest, k, v =>
    if k0 = k then (k0, v0 + v) :: rest else (k0, v0) :: dictAdd rest k v

/-- The pattern `if k not in m: m[k] = []` followed by `m[k].append(a)`. -/
def dictPush {κ α : Type} [DecidableEq κ] : List (κ × List α) → κ → α → List (κ × List α)
  | [], k, a => [(k, [a])]
  | (k0, l) :: rest, k, a =>
    if k0 = k then (k0, l ++ [a]) :: rest else (k0, l) :: dictPush rest k a

/-- Sum of the values of an association list. -/
def sumVals {κ : Type} (m : List (κ × Int)) : Int :=
  (m.map (fun kv => kv.2)).sum

/-- Duration rendering in `get_time_entries`, `search_time_entries` and
`get_time_entries_fixed` (src/server.py lines 379-388, 773-780, 905-911):
`hours = duration // 3600`, `minutes = (duration % 3600) // 60` when
`duration > 0`, and the literal "Running" otherwise. -/
def formatDuration (duration : Int) : String :=
  if duration > 0 then
    toString (duration / 3600) ++ "h " ++ toString (duration % 3600 / 60) ++ "m"
  else "Running"

/-- The `daily_total` accumulation: only entries with `duration > 0`
contribute (src/server.py lines 375-388). -/
def dailyTotal (entries : List TimeEntry) : Int :=
  entries.foldl (fun acc e =>
    let dur := e.duration.getD 0
    if dur > 0 then acc + dur else acc) 0

/-- Date-range resolution shared by the listing, summary, search and fixed
tools (src/server.py lines 329-335, 434-440, 718-724, 829-835); `today` is
the day ordinal of `datetime.now()` and `window` the default lookback.
`none` models the `ValueError` Python raises on an unparsable date. -/
def resolveDateRange (startDate endDate : String) (today : Int) (window : Nat) :
    Option (String × String) :=
  if startDate = "" ∧ endDate = "" then
    some (formatDate (today - (window : Int)), formatDate today)
  else if startDate = "" then
    (parseDate endDate).map (fun n => (formatDate (n - (window : Int)), endDate))
  else if endDate = "" then
    some (startDate, formatDate today)
  else
    some (startDate, endDate)

/-- Default lookback for entry listing and summary (src/server.py 331, 436). -/
def entriesLookbackDays : Nat := 7

/-- Default lookback for description search (src/server.py 720). -/
def searchLookbackDays : Nat := 30

/-- The API query window and single-day post-filter chosen by
`get_time_entries_fixed` (src/server.py lines 841-850): a single-day range is
widened by two days on each side and remembered in `single_day_filter`. -/
def fixedQueryPlan (startDate endDate : String) :
    Option (String × String × Option String) :=
  if startDate = endDate then
    match parseDate startDate, parseDate endDate with
    | some s, some e => some (formatDate (s - 2), formatDate (e + 2), some startDate)
    | _, _ => none
  else some (startDate, endDate, none)

/-- The post-fetch filtering of `get_time_entries_fixed`
(src/server.py lines 869-875): the single-day filter keeps entries whose
start prefix equals the requested day; otherwise a lexicographic range filter
runs only when the API window differs from the original range. -/
def fixedRangeFilter (originalStart originalEnd : String)
    (plan : String × String × Option String) (entries : List TimeEntry) :
    List TimeEntry :=
  match plan.2.2 with
  | some d => entries.filter (fun en => (en.start.getD "").take 10 == d)
  | none =>
    if originalStart ≠ plan.1 ∨ originalEnd ≠ plan.2.1 then
      entries.filter (fun en =>
        strLe originalStart ((en.start.getD "").take 10) &&
        strLe ((en.start.getD "").take 10) originalEnd)
    else entries

/-- The entry list `get_time_entries_fixed` goes on to display, for resolved
dates `startDate`, `endDate` and a backend answering a date-window query
(src/server.py lines 841-875); `none` models the exception path of an
unparsable date. -/
def fixedEntries (startDate endDate : String)
    (backend : String → String → List TimeEntry) : Option (List TimeEntry) :=
  (fixedQueryPlan startDate endDate).map (fun plan =>
    fixedRangeFilter startDate endDate plan (backend plan.1 plan.2.1))

/-- Grouping key of an entry: the first 10 characters of `start`, or
"Unknown date" when `start` is absent or empty (src/server.py 365-370). -/
def dateKey (e : TimeEntry) : String :=
  let s := e.start.getD ""
  if s ≠ "" then s.take 10 else "Unknown date"

/-- The insertion-ordered `entries_by_date` dict (src/server.py 364-370). -/
def groupByDate (entries : List TimeEntry) : List (String × List TimeEntry) :=
  entries.foldl (fun m e => dictPush m (dateKey e) e) []

/-- The first-match name-resolution loop used by `get_time_summary`,
`start_timer`, `get_project_tasks` and `create_project_task`
(src/server.py 450-454, 596-600, 964-969, 1040-1045). -/
def resolveFirstMatch : List Project → String → Option Int
  | [], _ => none
  | p :: ps, name => if p.name = some name then p.projId else resolveFirstMatch ps name

/-- The `project_map` dict comprehension of `get_time_entries` and
`get_time_entries_fixed` (src/server.py 340, 855): name key, id value, later
duplicates overwriting earlier ones. -/
def projectNameMap (projects : List Project) : List (String × Option Int) :=
  projects.foldl (fun m p => dictInsert m (p.name.getD "") p.projId) []

/-- The `project_map.get(project_name)` lookup of `get_time_entries` and
`get_time_entries_fixed` (src/server.py 345, 860). -/
def resolveProjectByMap (projects : List Project) (name : String) : Option Int :=
  (dictFind (projectNameMap projects) name).getD none

/-- The id-to-display-name `project_map` of `get_time_summary`
(src/server.py 445) with its `.get(project_id, "No project")` lookup
(src/server.py 479). -/
def displayName (projects : List Project) (pid : Option Int) : String :=
  (dictFind (projects.foldl (fun m p => dictInsert m p.projId (p.name.getD "Unknown")) [])
      pid).getD "No project"

/-- One iteration of the aggregation loop of `get_time_summary`
(src/server.py 474-485): an entry with `duration > 0` adds its duration to
its project's total and to the grand total; other entries are skipped. -/
def summaryStep (projects : List Project) (acc : List (String × Int) × Int)
    (e : TimeEntry) : List (String × Int) × Int :=
  let dur := e.duration.getD 0
  if dur > 0 then
    (dictAdd acc.1 (displayName projects e.project_id) dur, acc.2 + dur)
  else acc

/-- The aggregation loop of `get_time_summary` (src/server.py 470-485):
`project_totals` and `grand_total`, counting only entries with
`duration > 0`. -/
def summaryAgg (projects : List Project) (entries : List TimeEntry) :
    List (String × Int) × Int :=
  entries.foldl (summaryStep projects) ([], 0)

/-- The percentage computed by `get_time_summary` (src/server.py 496),
modelled in exact rational arithmetic. -/
def percentage (grandTotal totalSeconds : Int) : ℚ :=
  if grandTotal > 0 then (totalSeconds : ℚ) / (grandTotal : ℚ) * 100 else 0

/-- Rounding to one decimal place, as the `{percentage:.1f}` display. -/
def roundTenth (q : ℚ) : ℚ :=
  ((round (q * 10) : ℤ) : ℚ) / 10

/-- Characters of a string lowercased, as Python `s.lower()`. -/
def lowData (s : String) : List Char :=
  s.data.map Char.toLower

/-- The description match of `search_time_entries` (src/server.py 737-744):
the lowercased query occurs in the lowercased description, a missing
description reading as the empty string. -/
def searchMatches (query : String) (e : TimeEntry) : Bool :=
  chSub (lowData query) (lowData (e.description.getD ""))

/-- The `matching_entries` list of `search_time_entries`
(src/server.py 738-744). -/
def searchMatching (query : String) (entries : List TimeEntry) : List TimeEntry :=
  entries.filter (fun e => searchMatches query e)

/-- Status handling of `TogglClient.get_current_time_entry`
(src/server.py 113-127): the parsed body on 200, an explicit absence value on
404, and a raised backend error on every other status. -/
def get_current_time_entry (status : Nat) (body : Option TimeEntry)
    (errText : String) : Except String (Option TimeEntry) :=
  if status = 200 then Except.ok body
  else if status = 404 then Except.ok none
  else Except.error
    ("Failed to get current time entry: " ++ toString status ++ " - " ++ errText)

/-- The dispatch of the `get_current_timer` tool (src/server.py 524-561):
the fixed message when no entry is running, otherwise the detail formatter
(display-only glue, per the spec an external collaborator) applied to the
running entry. -/
def getCurrentTimerResult (current : Option TimeEntry)
    (detail : TimeEntry → String) : String :=
  match current with
  | none => "No timer is currently running."
  | some entry => detail entry

/-- Python `str(x)` for an optional integer field. -/
def optIntStr (n : Option Int) : String :=
  match n with
  | some i => toString i
  | none => "None"

/-- The `stop_current_timer` tool (src/server.py 638-694) down to the stop
mutation: the returned text together with whether the stop call was issued.
`stopped` is the backend's response to the stop mutation and `fmt` the
display-only success formatter. -/
def stop_current_timer_flow (current : Option TimeEntry)
    (workspaces : List Workspace) (stopped : TimeEntry)
    (fmt : TimeEntry → Workspace → TimeEntry → String) : String × Bool :=
  match current with
  | none => ("No timer is currently running.", false)
  | some entry =>
    match workspaces.find? (fun w => w.wsId == entry.workspace_id) with
    | none => ("Could not determine workspace for current timer.", false)
    | some w =>
      match entry.workspace_id with
      | none => ("Could not determine workspace for current timer.", false)
      | some wid =>
        if wid = 0 then ("Could not determine workspace for current timer.", false)
        else (fmt entry w stopped, true)

/-- The not-found message built by `start_timer` (src/server.py 602-604). -/
def projectNotFoundMsg (projectName : String) (projects : List Project) : String :=
  "Project '" ++ projectName ++ "' not found. Available projects: " ++
    String.intercalate ", " (projects.map (fun p => p.name.getD ""))

/-- Python `s.replace("T", " ")`: a single-character replacement is a
character-wise map. -/
def replaceTBlank (s : String) : String :=
  String.mk (s.data.map (fun c => if c = 'T' then ' ' else c))

/-- The success message built by `start_timer` (src/server.py 610-618). -/
def startSuccessMsg (description projectName workspaceName : String)
    (result : TimeEntry) : String :=
  let startTime :=
    match result.start with
    | some s => if s ≠ "" then replaceTBlank (s.take 16) else ""
    | none => ""
  "**Timer Started Successfully!**\n\n" ++
  "• **Description**: " ++ description ++ "\n" ++
  "• **Project**: " ++ (if projectName ≠ "" then projectName else "No project") ++ "\n" ++
  "• **Workspace**: " ++ workspaceName ++ "\n" ++
  "• **Started**: " ++ startTime ++ "\n" ++
  "• **Timer ID**: " ++ optIntStr result.entryId ++ "\n"

/-- The `start_timer` tool (src/server.py 583-620) as the returned text
together with whether the start mutation was issued; `started` is the
backend's response to the mutation.  Mirrors the source: an empty workspace
list returns early, a named project is resolved first-match, and a falsy
resolved id (absent or zero) returns the not-found message without
mutating. -/
def start_timer_flow (workspaces : List Workspace) (projects : List Project)
    (description : String) (projectName : String) (started : TimeEntry) :
    String × Bool :=
  match workspaces with
  | [] => ("No workspaces found. Cannot start timer.", false)
  | w :: _ =>
    let workspaceName := w.name.getD "Unknown"
    if projectName = "" then
      (startSuccessMsg description projectName workspaceName started, true)
    else
      match resolveFirstMatch projects projectName with
      | some pid =>
        if pid = 0 then (projectNotFoundMsg projectName projects, false)
        else (startSuccessMsg description projectName workspaceName started, true)
      | none => (projectNotFoundMsg projectName projects, false)

/-- A backend answering every window query with one entry on each of
2024-03-09, 2024-03-10 and 2024-03-11 (the spec's d-1, d, d+1 scenario). -/
def threeDayBackend : String → String → List TimeEntry := fun _ _ =>
  [{ start := some "2024-03-09T08:00:00Z", duration := some 3600 },
   { start := some "2024-03-10T09:00:00Z", duration := some 3600 },
   { start := some "2024-03-11T10:00:00Z", duration := some 1800 }]

/-- A backend answering every window query with a single entry dated outside
the 2024-01-01 to 2024-01-05 range. -/
def strayBackend : String → String → List TimeEntry := fun _ _ =>
  [{ start := some "2023-12-25T09:00:00Z", duration := some 3600 }]

/-- Two distinct projects sharing the display name "Alpha". -/
def dupProjects : List Project :=
  [{ projId := some 1, name := some "Alpha" },
   { projId := some 2, name := some "Alpha" }]

/-- A one-project list used to exercise the summary aggregation. -/
def oneProject : List Project := [{ projId := some 1, name := some "A" }]

/-- Entries for the summary witness: 3600s on project 1, 1800s unassigned,
and one running entry. -/
def summaryEntries : List TimeEntry :=
  [{ project_id := some 1, duration := some 3600 },
   { project_id := none, duration := some 1800 },
   { project_id := some 1, duration := some (-1) }]

lemma chPre_iff (n : List Char) : ∀ h, chPre n h = true ↔ ∃ t, h = n ++ t := by
  induction n with
  | nil => intro h; simp [chPre]
  | cons a as ih =>
    intro h
    cases h with
    | nil => simp [chPre]
    | cons b bs =>
      simp only [chPre, Bool.and_eq_true, beq_iff_eq, ih bs, List.cons_append]
      constructor
      · rintro ⟨rfl, t, rfl⟩; exact ⟨t, rfl⟩
      · rintro ⟨t, ht⟩
        injection ht with h1 h2
        exact ⟨h1.symm, t, h2⟩

lemma chSub_iff (n : List Char) : ∀ h, chSub n h = true ↔ ∃ u v, h = u ++ n ++ v := by
  intro h
  induction h with
  | nil =>
    rw [show chSub n [] = chPre n [] from rfl, chPre_iff]
    constructor
    · rintro ⟨t, ht⟩
      refine ⟨[], t, by simpa using ht⟩
    · rintro ⟨u, v, huv⟩
      refine ⟨v, ?_⟩
      rcases List.append_eq_nil.mp huv.symm with ⟨h1, h2⟩
      rcases List.append_eq_nil.mp h1 with ⟨rfl, rfl⟩
      simpa using huv
  | cons c t ih =>
    rw [show chSub n (c :: t) = (chPre n (c :: t) || chSub n t) from rfl]
    simp only [Bool.or_eq_true, chPre_iff, ih]
    constructor
    · rintro (⟨v, hv⟩ | ⟨u, v, rfl⟩)
      · exact ⟨[], v, by simpa using hv⟩
      · exact ⟨c :: u, v, by simp⟩
    · rintro ⟨u, v, huv⟩
      cases u with
      | nil => exact Or.inl ⟨v, by simpa using huv⟩
      | cons x xs =>
        injection huv with h1 h2
        exact Or.inr ⟨xs, v, by simpa using h2⟩

lemma chSub_nil (h : List Char) : chSub [] h = true := by
  cases h <;> simp [chSub, chPre]

/-- Claim C10: `search_time_entries` keeps an entry exactly when the
lowercased query occurs contiguously in the lowercased description (missing
descriptions reading as empty), and the empty query keeps every entry. -/
theorem search_substring_semantics (q : String) (entries : List TimeEntry) :
    (∀ e, e ∈ searchMatching q entries ↔
        e ∈ entries ∧
          ∃ u v, lowData (e.description.getD "") = u ++ lowData q ++ v) ∧
    searchMatching "" entries = entries := by
  constructor
  · intro e
    rw [searchMatching, List.mem_filter]
    rw [show searchMatches q e = chSub (lowData q) (lowData (e.description.getD "")) from rfl]
    rw [chSub_iff]
  · rw [searchMatching]
    apply List.filter_eq_self.mpr
    intro e _
    rw [show searchMatches "" e = chSub (lowData "") (lowData (e.description.getD "")) from rfl]
    rw [show lowData "" = [] from rfl]
    exact chSub_nil _

/-- Claim C2, counterexample: the code renders a duration of exactly 0 as
"Running", not as the claimed "0h 0m". -/
theorem formatDuration_zero_running :
    formatDuration 0 = "Running" ∧ formatDuration 0 ≠ "0h 0m" := by
  decide

/-- Claim C2 (amended): for d > 0 the formatted duration is
"{d//3600}h {(d%3600)//60}m"; for d ≤ 0 (including the -1 running sentinel)
it is the literal "Running"; and an entry with duration ≤ 0 contributes 0 to
the daily totals and to the project/grand totals of the summary. -/
theorem duration_format_and_zero_contribution (d dneg : Int) (hd : 0 < d)
    (hneg : dneg ≤ 0) (e : TimeEntry) (he : e.duration.getD 0 ≤ 0)
    (l1 l2 : List TimeEntry) (projects : List Project) :
    formatDuration d = toString (d / 3600) ++ "h " ++ toString (d % 3600 / 60) ++ "m" ∧
    formatDuration dneg = "Running" ∧
    dailyTotal (l1 ++ e :: l2) = dailyTotal (l1 ++ l2) ∧
    summaryAgg projects (l1 ++ e :: l2) = summaryAgg projects (l1 ++ l2) := by
  refine ⟨?_, ?_, ?_, ?_⟩
  · rw [formatDuration, if_pos hd]
  · rw [formatDuration, if_neg (by omega)]
  · rw [dailyTotal, dailyTotal, List.foldl_append, List.foldl_append, List.foldl_cons]
    congr 1
    simp only []
    rw [if_neg (by omega)]
  · rw [summaryAgg, summaryAgg, List.foldl_append, List.foldl_append, List.foldl_cons]
    congr 1
    simp only [summaryStep]
    rw [if_neg (by omega)]

/-- Claim C2, witness at d = 5400, a running entry of duration -1 and a
one-entry context. -/
theorem duration_format_and_zero_contribution_witness :
    ((0 : Int) < 5400 ∧ (-1 : Int) ≤ 0 ∧
      (TimeEntry.mk none none none none none none (some (-1))).duration.getD 0 ≤ 0) ∧
    (formatDuration 5400 = toString ((5400 : Int) / 3600) ++ "h " ++
        toString ((5400 : Int) % 3600 / 60) ++ "m" ∧
      formatDuration (-1) = "Running" ∧
      dailyTotal ([{ start := some "2024-01-01T09:00:00Z", duration := some 3600 }] ++
          TimeEntry.mk none none none none none none (some (-1)) :: []) =
        dailyTotal ([{ start := some "2024-01-01T09:00:00Z", duration := some 3600 }] ++ []) ∧
      summaryAgg [] ([{ start := some "2024-01-01T09:00:00Z", duration := some 3600 }] ++
          TimeEntry.mk none none none none none none (some (-1)) :: []) =
        summaryAgg [] ([{ start := some "2024-01-01T09:00:00Z", duration := some 3600 }] ++ [])) :=
  ⟨by decide, duration_format_and_zero_contribution 5400 (-1) (by decide) (by decide)
      (TimeEntry.mk none none none none none none (some (-1))) (by decide)
      [{ start := some "2024-01-01T09:00:00Z", duration := some 3600 }] [] []⟩

/-- Claim C6: the four date-range resolution rules, in order: neither date
gives (today - window, today); only an end date gives (end - window, end);
only a start date gives (start, today); both are passed through unchanged,
independently of today.  The lookback window is 7 days for listing/summary
and 30 for search. -/
theorem date_range_resolution_rules (s e : String) (today altToday : Int)
    (w : Nat) (hs : s ≠ "") (he : e ≠ "") :
    resolveDateRange "" "" today w =
      some (formatDate (today - (w : Int)), formatDate today) ∧
    resolveDateRange "" e today w =
      (parseDate e).map (fun n => (formatDate (n - (w : Int)), e)) ∧
    resolveDateRange s "" today w = some (s, formatDate today) ∧
    resolveDateRange s e today w = some (s, e) ∧
    resolveDateRange s e altToday w = resolveDateRange s e today w ∧
    entriesLookbackDays = 7 ∧ searchLookbackDays = 30 := by
  refine ⟨?_, ?_, ?_, ?_, ?_, rfl, rfl⟩
  · rw [resolveDateRange, if_pos ⟨rfl, rfl⟩]
  · rw [resolveDateRange, if_neg (by exact fun hc => he hc.2), if_pos rfl]
  · rw [resolveDateRange, if_neg (by exact fun hc => hs hc.1), if_neg hs, if_pos rfl]
  · rw [resolveDateRange, if_neg (by exact fun hc => hs hc.1), if_neg hs, if_neg he]
  · rw [resolveDateRange, if_neg (by exact fun hc => hs hc.1), if_neg hs, if_neg he,
      resolveDateRange, if_neg (by exact fun hc => hs hc.1), if_neg hs, if_neg he]

/-- Claim C6, witness with both dates supplied and two different values of
today, plus the empty-date cases. -/
theorem date_range_resolution_rules_witness :
    ("2024-01-05" ≠ "" ∧ "2024-02-01" ≠ "") ∧
    (resolveDateRange "" "" 19754 7 =
        some (formatDate ((19754 : Int) - (7 : Nat)), formatDate 19754) ∧
      resolveDateRange "" "2024-02-01" 19754 7 =
        (parseDate "2024-02-01").map (fun n => (formatDate (n - (7 : Nat)), "2024-02-01")) ∧
      resolveDateRange "2024-01-05" "" 19754 7 = some ("2024-01-05", formatDate 19754) ∧
      resolveDateRange "2024-01-05" "2024-02-01" 19754 7 =
        some ("2024-01-05", "2024-02-01") ∧
      resolveDateRange "2024-01-05" "2024-02-01" 123 7 =
        resolveDateRange "2024-01-05" "2024-02-01" 19754 7 ∧
      entriesLookbackDays = 7 ∧ searchLookbackDays = 30) :=
  ⟨by decide, date_range_resolution_rules "2024-01-05" "2024-02-01" 19754 123 7
      (by decide) (by decide)⟩

/-- Claim C1: when the resolved range collapses to a single day d, the
backend is queried over the widened window d-2 days through d+2 days, and
the displayed list is exactly the fetched entries whose 10-character start
prefix equals d. -/
theorem fixed_single_day_window_and_filter (d : String) (n : Int)
    (hd : parseDate d = some n) (backend : String → String → List TimeEntry) :
    fixedQueryPlan d d = some (formatDate (n - 2), formatDate (n + 2), some d) ∧
    fixedEntries d d backend =
      some ((backend (formatDate (n - 2)) (formatDate (n + 2))).filter
        (fun en => (en.start.getD "").take 10 == d)) ∧
    ∀ en, en ∈ (fixedEntries d d backend).getD [] ↔
      en ∈ backend (formatDate (n - 2)) (formatDate (n + 2)) ∧
        (en.start.getD "").take 10 = d := by
  have hplan : fixedQueryPlan d d =
      some (formatDate (n - 2), formatDate (n + 2), some d) := by
    rw [fixedQueryPlan, if_pos rfl, hd]
  have hmain : fixedEntries d d backend =
      some ((backend (formatDate (n - 2)) (formatDate (n + 2))).filter
        (fun en => (en.start.getD "").take 10 == d)) := by
    rw [fixedEntries, hplan, Option.map_some']
    rfl
  refine ⟨hplan, hmain, ?_⟩
  intro en
  rw [hmain, Option.getD_some, List.mem_filter, beq_iff_eq]

/-- Claim C1, witness: d = 2024-03-10 (ordinal 19792) against a backend
holding entries on d-1, d and d+1; only the entry dated d survives. -/
theorem fixed_single_day_window_and_filter_witness :
    parseDate "2024-03-10" = some 19792 ∧
    fixedEntries "2024-03-10" "2024-03-10" threeDayBackend =
      some ((threeDayBackend (formatDate ((19792 : Int) - 2))
          (formatDate ((19792 : Int) + 2))).filter
        (fun en => (en.start.getD "").take 10 == "2024-03-10")) ∧
    fixedEntries "2024-03-10" "2024-03-10" threeDayBackend =
      some [{ start := some "2024-03-10T09:00:00Z", duration := some 3600 }] :=
  ⟨by decide,
    (fixed_single_day_window_and_filter "2024-03-10" 19792 (by decide)
        threeDayBackend).2.1,
    by decide⟩

lemma fixedEntries_multi_day (s e : String) (hne : s ≠ e)
    (backend : String → String → List TimeEntry) :
    fixedEntries s e backend = some (backend s e) := by
  rw [fixedEntries, fixedQueryPlan, if_neg hne, Option.map_some']
  rw [show fixedRangeFilter s e (s, e, none) (backend s e) =
      if s ≠ s ∨ e ≠ e then (backend s e).filter (fun en =>
        strLe s ((en.start.getD "").take 10) &&
        strLe ((en.start.getD "").take 10) e) else backend s e from rfl]
  simp

/-- Claim C3, counterexample: on the multi-day range 2024-01-01 to
2024-01-05 an entry dated 2023-12-25 returned by the backend appears in the
output even though its date prefix is lexicographically outside the
range. -/
theorem fixed_multi_day_stray_entry_kept :
    fixedEntries "2024-01-01" "2024-01-05" strayBackend =
      some [{ start := some "2023-12-25T09:00:00Z", duration := some 3600 }] ∧
    ((({ start := some "2023-12-25T09:00:00Z", duration := some 3600 } :
        TimeEntry).start.getD "").take 10) = "2023-12-25" ∧
    strLe "2024-01-01" "2023-12-25" = false := by
  decide

/-- Claim C3 (amended): when the resolved range spans more than one day, the
API window equals the requested range, the lexicographic post-filter branch
is unreachable, and the output is exactly the backend's entries - entries
dated outside the requested range are not removed. -/
theorem fixed_multi_day_no_filtering (s e : String) (hne : s ≠ e)
    (backend : String → String → List TimeEntry) :
    fixedEntries s e backend = some (backend s e) :=
  fixedEntries_multi_day s e hne backend

/-- Claim C3 (amended), witness: the stray out-of-range entry is passed
through verbatim on a concrete multi-day query. -/
theorem fixed_multi_day_no_filtering_witness :
    "2024-01-01" ≠ "2024-01-05" ∧
    fixedEntries "2024-01-01" "2024-01-05" strayBackend =
      some (strayBackend "2024-01-01" "2024-01-05") :=
  ⟨by decide, fixed_multi_day_no_filtering "2024-01-01" "2024-01-05" (by decide)
      strayBackend⟩

/-- Claim C5: a 404 on getting the current entry yields the explicit absence
value (and is the only tolerated non-200 status: every other non-200 raises
a backend error carrying the status); on an absent current entry the
current-timer tool answers "No timer is currently running." and the
stop-timer tool answers the same without issuing the stop mutation. -/
theorem current_entry_404_absence (status : Nat) (h200 : status ≠ 200)
    (h404 : status ≠ 404) (body : Option TimeEntry) (errText : String)
    (detail : TimeEntry → String) (workspaces : List Workspace)
    (stopped : TimeEntry) (fmt : TimeEntry → Workspace → TimeEntry → String) :
    get_current_time_entry 404 body errText = Except.ok none ∧
    get_current_time_entry 200 body errText = Except.ok body ∧
    get_current_time_entry status body errText =
      Except.error
        ("Failed to get current time entry: " ++ toString status ++ " - " ++ errText) ∧
    getCurrentTimerResult none detail = "No timer is currently running." ∧
    stop_current_timer_flow none workspaces stopped fmt =
      ("No timer is currently running.", false) := by
  refine ⟨?_, ?_, ?_, rfl, rfl⟩
  · rw [get_current_time_entry, if_neg (by decide), if_pos rfl]
  · rw [get_current_time_entry, if_pos rfl]
  · rw [get_current_time_entry, if_neg h200, if_neg h404]

/-- Claim C5, witness at the non-tolerated status 500. -/
theorem current_entry_404_absence_witness :
    ((500 : Nat) ≠ 200 ∧ (500 : Nat) ≠ 404) ∧
    (get_current_time_entry 404 none "boom" = Except.ok none ∧
      get_current_time_entry 200 none "boom" = Except.ok none ∧
      get_current_time_entry 500 none "boom" =
        Except.error ("Failed to get current time entry: " ++ toString (500 : Nat) ++
          " - " ++ "boom") ∧
      getCurrentTimerResult none (fun _ => "") = "No timer is currently running." ∧
      stop_current_timer_flow none [] { } (fun _ _ _ => "") =
        ("No timer is currently running.", false)) :=
  ⟨by decide, current_entry_404_absence 500 (by decide) (by decide) none "boom"
      (fun _ => "") [] { } (fun _ _ _ => "")⟩

lemma dictFind_insert {κ α : Type} [DecidableEq κ] (m : List (κ × α)) (k k' : κ)
    (v : α) :
    dictFind (dictInsert m k v) k' = if k = k' then some v else dictFind m k' := by
  induction m with
  | nil => simp [dictInsert, dictFind]
  | cons kv rest ih =>
    obtain ⟨k0, v0⟩ := kv
    by_cases h0 : k0 = k
    · subst h0
      by_cases h1 : k0 = k'
      · subst h1
        simp [dictInsert, dictFind]
      · simp [dictInsert, dictFind, h1]
    · by_cases h1 : k0 = k'
      · subst h1
        simp [dictInsert, dictFind, h0, Ne.symm h0]
      · simp [dictInsert, dictFind, h0, h1, ih]

lemma projectNameMap_find_last (name : String) :
    ∀ (ps : List Project) (m : List (String × Option Int)),
      dictFind (ps.foldl (fun acc p => dictInsert acc (p.name.getD "") p.projId) m)
          name =
        match ps.reverse.find? (fun p => p.name.getD "" == name) with
        | some q => some q.projId
        | none => dictFind m name := by
  intro ps
  induction ps with
  | nil => intro m; rfl
  | cons p rest ih =>
    intro m
    rw [List.foldl_cons, ih, List.reverse_cons, List.find?_append]
    cases hf : rest.reverse.find? (fun r => r.name.getD "" == name) with
    | some q => rfl
    | none =>
      by_cases hp : p.name.getD "" = name
      · simp [List.find?, hp, dictFind_insert]
      · have hbeq : (p.name.getD "" == name) = false := beq_eq_false_iff_ne.mpr hp
        simp [List.find?, hbeq, dictFind_insert, hp]

lemma resolveFirstMatch_eq_find (ps : List Project) (name : String) :
    resolveFirstMatch ps name =
      match ps.find? (fun p => p.name == some name) with
      | some p => p.projId
      | none => none := by
  induction ps with
  | nil => rfl
  | cons p rest ih =>
    by_cases hp : p.name = some name
    · simp [resolveFirstMatch, hp, List.find?]
    · have hbeq : (p.name == some name) = false := beq_eq_false_iff_ne.mpr hp
      simp [resolveFirstMatch, hp, List.find?, hbeq, ih]

/-- Claim C4, counterexample: with two projects both named "Alpha" (ids 1
then 2), `get_time_entries`-style resolution through the name-to-id dict
yields the LAST match (id 2), not the first. -/
theorem name_resolution_dict_last_match :
    resolveProjectByMap dupProjects "Alpha" = some 2 ∧
    resolveFirstMatch dupProjects "Alpha" = some 1 ∧
    (some 2 : Option Int) ≠ some 1 := by
  decide

/-- Claim C4 (amended): name resolution is deterministic but not uniformly
first-match: the loop used by `get_time_summary`, `start_timer`,
`get_project_tasks` and `create_project_task` picks the FIRST project whose
name matches, while the dict built by `get_time_entries` (and
`get_time_entries_fixed`) maps a duplicated name to the LAST matching
project's id. -/
theorem name_resolution_semantics (ps : List Project) (name : String)
    (p q : Project)
    (hfirst : ps.find? (fun r => r.name == some name) = some p)
    (hlast : ps.reverse.find? (fun r => r.name.getD "" == name) = some q) :
    resolveFirstMatch ps name = p.projId ∧
    resolveProjectByMap ps name = q.projId := by
  constructor
  · rw [resolveFirstMatch_eq_find, hfirst]
  · rw [resolveProjectByMap, projectNameMap, projectNameMap_find_last name ps [],
      hlast]
    rfl

/-- Claim C4, witness on the duplicated "Alpha" list: first-match picks id 1,
the dict picks id 2. -/
theorem name_resolution_semantics_witness :
    (dupProjects.find? (fun r => r.name == some "Alpha") =
        some { projId := some 1, name := some "Alpha" } ∧
      dupProjects.reverse.find? (fun r => r.name.getD "" == "Alpha") =
        some { projId := some 2, name := some "Alpha" }) ∧
    (resolveFirstMatch dupProjects "Alpha" =
        ({ projId := some 1, name := some "Alpha" } : Project).projId ∧
      resolveProjectByMap dupProjects "Alpha" =
        ({ projId := some 2, name := some "Alpha" } : Project).projId) :=
  ⟨by decide, name_resolution_semantics dupProjects "Alpha"
      { projId := some 1, name := some "Alpha" }
      { projId := some 2, name := some "Alpha" } (by decide) (by decide)⟩

lemma resolveFirstMatch_none (ps : List Project) (name : String)
    (h : ∀ p ∈ ps, p.name ≠ some name) : resolveFirstMatch ps name = none := by
  induction ps with
  | nil => rfl
  | cons p rest ih =>
    rw [show resolveFirstMatch (p :: rest) name =
        if p.name = some name then p.projId else resolveFirstMatch rest name from rfl]
    rw [if_neg (h p (by simp))]
    exact ih (fun r hr => h r (by simp [hr]))

/-- Claim C7, counterexample: a call with the unresolvable name "Alpha" but
an empty workspace list returns the no-workspaces message, which neither
matches the not-found form nor mentions the name; the claim's universally
quantified message shape therefore fails (though no mutation is issued). -/
theorem start_timer_empty_workspaces :
    start_timer_flow [] [] "work" "Alpha" { } =
      ("No workspaces found. Cannot start timer.", false) ∧
    "No workspaces found. Cannot start timer." ≠ projectNotFoundMsg "Alpha" [] ∧
    chSub "Alpha".data "No workspaces found. Cannot start timer.".data = false := by
  decide

/-- Claim C7 (amended): whenever at least one workspace exists, a non-empty
project name matching no project makes `start_timer` return the message
naming the unresolved project and listing every available project name, and
the start mutation is never issued; with no workspace the (different)
no-workspaces message is returned, still without mutating. -/
theorem start_timer_unresolved_name (workspaces : List Workspace)
    (projects : List Project) (description projectName : String)
    (started : TimeEntry) (hws : workspaces ≠ []) (hname : projectName ≠ "")
    (hmatch : ∀ p ∈ projects, p.name ≠ some projectName) :
    start_timer_flow workspaces projects description projectName started =
      (projectNotFoundMsg projectName projects, false) ∧
    projectNotFoundMsg projectName projects =
      "Project '" ++ projectName ++ "' not found. Available projects: " ++
        String.intercalate ", " (projects.map (fun p => p.name.getD "")) ∧
    (start_timer_flow [] projects description projectName started).2 = false := by
  cases workspaces with
  | nil => exact absurd rfl hws
  | cons w rest =>
    refine ⟨?_, rfl, rfl⟩
    rw [show start_timer_flow (w :: rest) projects description projectName started =
        (if projectName = "" then
          (startSuccessMsg description projectName (w.name.getD "Unknown") started, true)
        else
          match resolveFirstMatch projects projectName with
          | some pid =>
            if pid = 0 then (projectNotFoundMsg projectName projects, false)
            else (startSuccessMsg description projectName (w.name.getD "Unknown") started,
              true)
          | none => (projectNotFoundMsg projectName projects, false)) from rfl]
    rw [if_neg hname, resolveFirstMatch_none projects projectName hmatch]

/-- Claim C7, witness: the spec's scenario of resolving "Alpha" among Beta
and Gamma, with one workspace present. -/
theorem start_timer_unresolved_name_witness :
    (([{ wsId := some 1, name := some "WS" }] : List Workspace) ≠ [] ∧
      "Alpha" ≠ "" ∧
      ∀ p ∈ ([{ projId := some 7, name := some "Beta" },
          { projId := some 8, name := some "Gamma" }] : List Project),
        p.name ≠ some "Alpha") ∧
    start_timer_flow [{ wsId := some 1, name := some "WS" }]
        [{ projId := some 7, name := some "Beta" },
         { projId := some 8, name := some "Gamma" }] "work" "Alpha" { } =
      (projectNotFoundMsg "Alpha"
        [{ projId := some 7, name := some "Beta" },
         { projId := some 8, name := some "Gamma" }], false) ∧
    projectNotFoundMsg "Alpha"
        [{ projId := some 7, name := some "Beta" },
         { projId := some 8, name := some "Gamma" }] =
      "Project 'Alpha' not found. Available projects: Beta, Gamma" :=
  ⟨by decide,
    (start_timer_unresolved_name [{ wsId := some 1, name := some "WS" }]
        [{ projId := some 7, name := some "Beta" },
         { projId := some 8, name := some "Gamma" }] "work" "Alpha" { }
        (by decide) (by decide) (by decide)).1,
    by decide⟩

lemma dictAdd_sumVals {κ : Type} [DecidableEq κ] (m : List (κ × Int)) (k : κ)
    (v : Int) : sumVals (dictAdd m k v) = sumVals m + v := by
  induction m with
  | nil => simp [dictAdd, sumVals]
  | cons kv rest ih =>
    obtain ⟨k0, v0⟩ := kv
    by_cases h : k0 = k
    · subst h
      simp [dictAdd, sumVals]
      ring
    · simp only [dictAdd, if_neg h, sumVals, List.map_cons, List.sum_cons] at ih ⊢
      omega

lemma dictAdd_pos {κ : Type} [DecidableEq κ] (m : List (κ × Int)) (k : κ)
    (v : Int) (hv : 0 < v) (hm : ∀ kv ∈ m, 0 < kv.2) :
    ∀ kv ∈ dictAdd m k v, 0 < kv.2 := by
  induction m with
  | nil =>
    intro kv hkv
    simp [dictAdd] at hkv
    simp [hkv, hv]
  | cons kv0 rest ih =>
    obtain ⟨k0, v0⟩ := kv0
    intro kv hkv
    by_cases h : k0 = k
    · subst h
      rw [show dictAdd ((k0, v0) :: rest) k0 v = (k0, v0 + v) :: rest from by
        simp [dictAdd]] at hkv
      rcases List.mem_cons.mp hkv with rfl | hmem
      · have := hm (k0, v0) (by simp)
        simp at this ⊢
        omega
      · exact hm kv (by simp [hmem])
    · rw [show dictAdd ((k0, v0) :: rest) k v = (k0, v0) :: dictAdd rest k v from by
        simp [dictAdd, h]] at hkv
      rcases List.mem_cons.mp hkv with rfl | hmem
      · exact hm (k0, v0) (by simp)
      · exact ih (fun r hr => hm r (by simp [hr])) kv hmem

lemma summaryFold_inv (projects : List Project) :
    ∀ (entries : List TimeEntry) (acc : List (String × Int) × Int),
      sumVals acc.1 = acc.2 → (∀ kv ∈ acc.1, 0 < kv.2) →
      sumVals (List.foldl (summaryStep projects) acc entries).1 =
          (List.foldl (summaryStep projects) acc entries).2 ∧
        ∀ kv ∈ (List.foldl (summaryStep projects) acc entries).1, 0 < kv.2 := by
  intro entries
  induction entries with
  | nil => intro acc h1 h2; exact ⟨h1, h2⟩
  | cons e rest ih =>
    intro acc h1 h2
    rw [List.foldl_cons]
    by_cases hdur : e.duration.getD 0 > 0
    · apply ih
      · simp only [summaryStep, if_pos hdur]
        rw [dictAdd_sumVals, h1]
      · simp only [summaryStep, if_pos hdur]
        exact dictAdd_pos acc.1 (displayName projects e.project_id)
          (e.duration.getD 0) hdur h2
    · apply ih
      · simp only [summaryStep, if_neg hdur]
        exact h1
      · simp only [summaryStep, if_neg hdur]
        exact h2

lemma summaryAgg_inv (projects : List Project) (entries : List TimeEntry) :
    sumVals (summaryAgg projects entries).1 = (summaryAgg projects entries).2 ∧
    ∀ kv ∈ (summaryAgg projects entries).1, 0 < kv.2 := by
  rw [summaryAgg]
  exact summaryFold_inv projects entries ([], 0) (by simp [sumVals]) (by simp)

lemma sumVals_pos {κ : Type} (m : List (κ × Int)) (hne : m ≠ [])
    (h : ∀ kv ∈ m, 0 < kv.2) : 0 < sumVals m := by
  induction m with
  | nil => exact absurd rfl hne
  | cons kv rest ih =>
    rw [show sumVals (kv :: rest) = kv.2 + sumVals rest from by
      simp [sumVals]]
    have h0 := h kv (by simp)
    cases rest with
    | nil => simp [sumVals]; omega
    | cons kv2 rest2 =>
      have := ih (by simp) (fun r hr => h r (by simp [hr]))
      omega

lemma sumVals_cast {κ : Type} (m : List (κ × Int)) :
    ((sumVals m : Int) : ℚ) = (m.map (fun kv => ((kv.2 : Int) : ℚ))).sum := by
  induction m with
  | nil => simp [sumVals]
  | cons kv rest ih =>
    rw [show sumVals (kv :: rest) = kv.2 + sumVals rest from by simp [sumVals]]
    push_cast
    rw [ih]
    simp

lemma percentages_sum_100 (m : List (String × Int)) (g : Int) (hg : 0 < g)
    (hsum : sumVals m = g) :
    (m.map (fun kv => percentage g kv.2)).sum = 100 := by
  have hg0 : (g : ℚ) ≠ 0 := Int.cast_ne_zero.mpr (by omega)
  have h1 : ∀ kv : String × Int,
      percentage g kv.2 = (kv.2 : ℚ) * (100 / (g : ℚ)) := by
    intro kv
    rw [percentage, if_pos hg]
    ring
  calc (m.map (fun kv => percentage g kv.2)).sum
      = (m.map (fun kv => (kv.2 : ℚ) * (100 / (g : ℚ)))).sum := by
        simp only [h1]
    _ = (m.map (fun kv => ((kv.2 : Int) : ℚ))).sum * (100 / (g : ℚ)) :=
        List.sum_map_mul_right m (fun kv => ((kv.2 : Int) : ℚ)) _
    _ = (g : ℚ) * (100 / (g : ℚ)) := by rw [← sumVals_cast, hsum]
    _ = 100 := by field_simp

lemma roundTenth_close (q : ℚ) : |roundTenth q - q| ≤ 1 / 20 := by
  rw [roundTenth]
  have h := abs_sub_round (q * 10)
  rw [abs_sub_comm] at h
  have h2 : ((round (q * 10) : ℤ) : ℚ) / 10 - q =
      (((round (q * 10) : ℤ) : ℚ) - q * 10) / 10 := by ring
  rw [h2, abs_div, abs_of_pos (by norm_num : (0 : ℚ) < 10)]
  linarith

lemma sum_abs_bound {α : Type} (f g : α → ℚ) (c : ℚ) :
    ∀ l : List α, (∀ x ∈ l, |f x - g x| ≤ c) →
      |(l.map f).sum - (l.map g).sum| ≤ (l.length : ℚ) * c := by
  intro l
  induction l with
  | nil => intro _; simp
  | cons a rest ih =>
    intro h
    have h1 := h a (by simp)
    have h2 := ih (fun x hx => h x (by simp [hx]))
    simp only [List.map_cons, List.sum_cons, List.length_cons]
    have h3 : f a + (rest.map f).sum - (g a + (rest.map g).sum) =
        (f a - g a) + ((rest.map f).sum - (rest.map g).sum) := by ring
    rw [h3]
    have h4 := abs_add (f a - g a) ((rest.map f).sum - (rest.map g).sum)
    have h5 : ((rest.length + 1 : ℕ) : ℚ) * c = (rest.length : ℚ) * c + c := by
      push_cast
      ring
    rw [h5]
    linarith

/-- Claim C8: in the time summary each project's percentage is its total
over the grand total times 100 (and 0 when the grand total is 0), and for a
non-empty totals table the one-decimal-rounded percentages sum to 100 within
0.1 times the number of projects (numerics modelled in exact rational
arithmetic). -/
theorem summary_percentage_sum (projects : List Project)
    (entries : List TimeEntry) (h : (summaryAgg projects entries).1 ≠ []) :
    (∀ t : Int, percentage 0 t = 0) ∧
    (∀ kv ∈ (summaryAgg projects entries).1,
      percentage (summaryAgg projects entries).2 kv.2 =
        (kv.2 : ℚ) / ((summaryAgg projects entries).2 : ℚ) * 100) ∧
    |((summaryAgg projects entries).1.map
        (fun kv => roundTenth (percentage (summaryAgg projects entries).2 kv.2))).sum
      - 100| ≤ ((summaryAgg projects entries).1.length : ℚ) * (1 / 10) := by
  obtain ⟨hsum, hpos⟩ := summaryAgg_inv projects entries
  have hg : 0 < (summaryAgg projects entries).2 := by
    rw [← hsum]
    exact sumVals_pos _ h hpos
  refine ⟨?_, ?_, ?_⟩
  · intro t
    rw [percentage, if_neg (by omega)]
  · intro kv _
    rw [percentage, if_pos hg]
  · have key : ∀ (m : List (String × Int)) (g : Int), 0 < g → sumVals m = g →
        |(m.map (fun kv => roundTenth (percentage g kv.2))).sum - 100| ≤
          (m.length : ℚ) * (1 / 10) := by
      intro m g hg hsum
      have h100 := percentages_sum_100 m g hg hsum
      have hfg : ∀ x ∈ m, |(fun kv => roundTenth (percentage g kv.2)) x -
          (fun kv => percentage g kv.2) x| ≤ (1 : ℚ) / 20 :=
        fun kv _ => roundTenth_close (percentage g kv.2)
      have hb := @sum_abs_bound (String × Int)
        (fun kv => roundTenth (percentage g kv.2))
        (fun kv => percentage g kv.2) ((1 : ℚ) / 20) m hfg
      rw [h100] at hb
      have hlen : (0 : ℚ) ≤ (m.length : ℚ) := Nat.cast_nonneg _
      nlinarith
    exact key _ _ hg hsum

/-- Claim C8, witness: one project "A" worked 3600s plus an unassigned 1800s
entry and a running entry; the totals table is non-empty. -/
theorem summary_percentage_sum_witness :
    (summaryAgg oneProject summaryEntries).1 ≠ [] ∧
    |((summaryAgg oneProject summaryEntries).1.map
        (fun kv => roundTenth (percentage
          (summaryAgg oneProject summaryEntries).2 kv.2))).sum
      - 100| ≤
      ((summaryAgg oneProject summaryEntries).1.length : ℚ) * (1 / 10) :=
  ⟨by decide, (summary_percentage_sum oneProject summaryEntries (by decide)).2.2⟩

lemma dictFind_push_self {κ α : Type} [DecidableEq κ] (m : List (κ × List α))
    (k : κ) (a : α) :
    dictFind (dictPush m k a) k = some ((dictFind m k).getD [] ++ [a]) := by
  induction m with
  | nil => simp [dictPush, dictFind]
  | cons kv rest ih =>
    obtain ⟨k0, l⟩ := kv
    by_cases h : k0 = k
    · subst h
      simp [dictPush, dictFind]
    · simp [dictPush, dictFind, h, ih]

lemma dictFind_push_other {κ α : Type} [DecidableEq κ] (m : List (κ × List α))
    (k k' : κ) (a : α) (hkk : k ≠ k') :
    dictFind (dictPush m k a) k' = dictFind m k' := by
  induction m with
  | nil => simp [dictPush, dictFind, hkk]
  | cons kv rest ih =>
    obtain ⟨k0, l⟩ := kv
    by_cases h : k0 = k
    · subst h
      simp [dictPush, dictFind, hkk]
    · by_cases h2 : k0 = k'
      · subst h2
        simp [dictPush, dictFind, h]
      · simp [dictPush, dictFind, h, h2, ih]

lemma groupFold_mem (e : TimeEntry) :
    ∀ (entries : List TimeEntry) (m : List (String × List TimeEntry)),
      (e ∈ entries ∨ ∃ l, dictFind m (dateKey e) = some l ∧ e ∈ l) →
      ∃ l, dictFind (entries.foldl (fun acc x => dictPush acc (dateKey x) x) m)
          (dateKey e) = some l ∧ e ∈ l := by
  intro entries
  induction entries with
  | nil =>
    intro m h
    rcases h with h | h
    · simp at h
    · exact h
  | cons x rest ih =>
    intro m h
    rw [List.foldl_cons]
    apply ih
    rcases h with hmem | ⟨l, hfind, hl⟩
    · rcases List.mem_cons.mp hmem with rfl | hmem2
      · right
        exact ⟨(dictFind m (dateKey e)).getD [] ++ [e],
          dictFind_push_self m (dateKey e) e, by simp⟩
      · left
        exact hmem2
    · right
      by_cases hk : dateKey x = dateKey e
      · rw [← hk]
        rw [← hk] at hfind
        refine ⟨(dictFind m (dateKey x)).getD [] ++ [x],
          dictFind_push_self m (dateKey x) x, ?_⟩
        rw [hfind]
        simp [hl]
      · exact ⟨l, by
          rw [dictFind_push_other m (dateKey x) (dateKey e) x hk]
          exact hfind, hl⟩

lemma groupByDate_mem (entries : List TimeEntry) (e : TimeEntry)
    (he : e ∈ entries) :
    ∃ l, dictFind (groupByDate entries) (dateKey e) = some l ∧ e ∈ l :=
  groupFold_mem e entries [] (Or.inl he)

lemma dictPush_keys_sub {κ α : Type} [DecidableEq κ] (m : List (κ × List α))
    (k : κ) (a : α) :
    ∀ k' ∈ (dictPush m k a).map Prod.fst, k' ∈ m.map Prod.fst ∨ k' = k := by
  induction m with
  | nil =>
    intro k' h
    simp [dictPush] at h
    right
    exact h
  | cons kv rest ih =>
    obtain ⟨k0, l⟩ := kv
    intro k' h
    by_cases hk : k0 = k
    · subst hk
      rw [show dictPush ((k0, l) :: rest) k0 a = (k0, l ++ [a]) :: rest from by
        simp [dictPush]] at h
      simp only [List.map_cons, List.mem_cons] at h ⊢
      tauto
    · rw [show dictPush ((k0, l) :: rest) k a = (k0, l) :: dictPush rest k a from by
        simp [dictPush, hk]] at h
      simp only [List.map_cons, List.mem_cons] at h ⊢
      rcases h with h | h
      · tauto
      · rcases ih k' h with h2 | h2 <;> tauto

lemma groupFold_keys :
    ∀ (entries : List TimeEntry) (m : List (String × List TimeEntry)) (k : String),
      k ∈ (entries.foldl (fun acc x => dictPush acc (dateKey x) x) m).map Prod.fst →
      k ∈ m.map Prod.fst ∨ ∃ x ∈ entries, dateKey x = k := by
  intro entries
  induction entries with
  | nil =>
    intro m k h
    left
    simpa using h
  | cons x rest ih =>
    intro m k h
    rw [List.foldl_cons] at h
    rcases ih (dictPush m (dateKey x) x) k h with h2 | ⟨y, hy, hdy⟩
    · rcases dictPush_keys_sub m (dateKey x) x k h2 with h3 | h3
      · left
        exact h3
      · right
        exact ⟨x, by simp, h3.symm⟩
    · right
      exact ⟨y, by simp [hy], hdy⟩

/-- Claim C9: in a single-day query every entry with an absent or empty
start is dropped, so the "Unknown date" group cannot occur in the grouped
output; in a multi-day query such entries are retained and are grouped under
the "Unknown date" key. -/
theorem unknown_date_single_vs_multi (d : String) (n : Int)
    (hd : parseDate d = some n) (s e : String) (hne : s ≠ e)
    (backend backend2 : String → String → List TimeEntry) :
    (∀ en ∈ (fixedEntries d d backend).getD [], en.start.getD "" ≠ "") ∧
    "Unknown date" ∉
      (groupByDate ((fixedEntries d d backend).getD [])).map Prod.fst ∧
    (∀ en ∈ backend2 s e, (en.start = none ∨ en.start = some "") →
      en ∈ (fixedEntries s e backend2).getD [] ∧
      dateKey en = "Unknown date" ∧
      ∃ l, dictFind (groupByDate ((fixedEntries s e backend2).getD []))
          "Unknown date" = some l ∧ en ∈ l) := by
  have hd0 : d ≠ "" := by
    intro h
    rw [h, show parseDate "" = none from by decide] at hd
    exact Option.noConfusion hd
  have hdU : d ≠ "Unknown date" := by
    intro h
    rw [h, show parseDate "Unknown date" = none from by decide] at hd
    exact Option.noConfusion hd
  have hmain : fixedEntries d d backend =
      some ((backend (formatDate (n - 2)) (formatDate (n + 2))).filter
        (fun en => (en.start.getD "").take 10 == d)) := by
    rw [fixedEntries, fixedQueryPlan, if_pos rfl, hd, Option.map_some']
    rfl
  have hout1 : (fixedEntries d d backend).getD [] =
      (backend (formatDate (n - 2)) (formatDate (n + 2))).filter
        (fun en => (en.start.getD "").take 10 == d) := by
    rw [hmain, Option.getD_some]
  have hkeep : ∀ en ∈ (fixedEntries d d backend).getD [],
      (en.start.getD "").take 10 = d := by
    intro en hen
    rw [hout1] at hen
    exact beq_iff_eq.mp (List.mem_filter.mp hen).2
  have hnonempty : ∀ en ∈ (fixedEntries d d backend).getD [],
      en.start.getD "" ≠ "" := by
    intro en hen h0
    have := hkeep en hen
    rw [h0, show ("" : String).take 10 = "" from by decide] at this
    exact hd0 this.symm
  refine ⟨hnonempty, ?_, ?_⟩
  · intro hmem
    rcases groupFold_keys ((fixedEntries d d backend).getD []) [] "Unknown date"
        hmem with h2 | ⟨x, hx, hdx⟩
    · simp at h2
    · have h10 := hkeep x hx
      have hne0 := hnonempty x hx
      rw [dateKey] at hdx
      simp only [if_pos hne0] at hdx
      exact hdU (by rw [← h10, hdx])
  · intro en hen hstart
    have hout2 : (fixedEntries s e backend2).getD [] = backend2 s e := by
      rw [fixedEntries_multi_day s e hne backend2, Option.getD_some]
    have hkey : dateKey en = "Unknown date" := by
      rcases hstart with h | h <;> simp [dateKey, h]
    refine ⟨by rw [hout2]; exact hen, hkey, ?_⟩
    have := groupByDate_mem ((fixedEntries s e backend2).getD []) en
      (by rw [hout2]; exact hen)
    rw [hkey] at this
    exact this

/-- Claim C9, witness: on day 2024-03-10 a start-less entry is dropped from
the single-day output and no "Unknown date" group exists, while on the
multi-day range 2024-03-01 to 2024-03-05 the same backend's start-less entry
is kept and grouped under "Unknown date". -/
theorem unknown_date_single_vs_multi_witness :
    (parseDate "2024-03-10" = some 19792 ∧ "2024-03-01" ≠ "2024-03-05") ∧
    ("Unknown date" ∉
      (groupByDate ((fixedEntries "2024-03-10" "2024-03-10"
        (fun _ _ => [{ duration := some 60 },
          { start := some "2024-03-10T09:00:00Z", duration := some 3600 }])).getD
        [])).map Prod.fst ∧
    ({ duration := some 60 : TimeEntry} ∈
      (fixedEntries "2024-03-01" "2024-03-05"
        (fun _ _ => [{ duration := some 60 },
          { start := some "2024-03-10T09:00:00Z", duration := some 3600 }])).getD [] ∧
      ∃ l, dictFind (groupByDate ((fixedEntries "2024-03-01" "2024-03-05"
          (fun _ _ => [{ duration := some 60 },
            { start := some "2024-03-10T09:00:00Z", duration := some 3600 }])).getD
          [])) "Unknown date" = some l ∧ ({ duration := some 60 : TimeEntry}) ∈ l)) :=
  ⟨by decide,
    (unknown_date_single_vs_multi "2024-03-10" 19792 (by decide)
        "2024-03-01" "2024-03-05" (by decide)
        (fun _ _ => [{ duration := some 60 },
          { start := some "2024-03-10T09:00:00Z", duration := some 3600 }])
        (fun _ _ => [{ duration := some 60 },
          { start := some "2024-03-10T09:00:00Z", duration := some 3600 }])).2.1,
    by
      have h := (unknown_date_single_vs_multi "2024-03-10" 19792 (by decide)
        "2024-03-01" "2024-03-05" (by decide)
        (fun _ _ => [{ duration := some 60 },
          { start := some "2024-03-10T09:00:00Z", duration := some 3600 }])
        (fun _ _ => [{ duration := some 60 },
          { start := some "2024-03-10T09:00:00Z", duration := some 3600 }])).2.2
        { duration := some 60 } (by decide) (Or.inl rfl)
      exact ⟨h.1, h.2.2⟩⟩
